import Mathlib

/-!
Verification of the torrent-to-library import pipeline and remote-scan
session of the romm-gog-custodian repository, as a shallow embedding in
Lean 4.  The embedded functions are translated from the Python source:

  * `new_folder`, `move_torrent_folder`, `delete_torrent`,
    `torrent_manager` from `src/modules/torrents.py`;
  * `RommAPI.scan_library` from `src/modules/api/romm.py`;
  * the selection predicates of `find_empty` / `find_fragmented` from
    `src/modules/romm_library_cleanup.py`.

Filesystem, network and torrent-client effects are modelled by explicit
oracle inputs (which primitive operation succeeds or raises which
exception class), so every execution path of the source that returns a
value is represented by a concrete oracle value.
-/

namespace Custodian

/-! ### Python string primitives

Python `len` on `str` counts code points, `needle in hay` is literal
substring containment, `s.split(m)[0]` is the text before the first
occurrence of `m`, `s.strip()` trims whitespace at both ends, and
`s.replace(c, "")` for a single character removes every occurrence of
that character.  They are modelled on `List Char`. -/

/-- `charsLead needle hay` is true when `needle` is a leading segment of
`hay` (Python: `hay.startswith(needle)`). -/
def charsLead : List Char → List Char → Bool
  | [], _ => true
  | _ :: _, [] => false
  | a :: as, b :: bs => a == b && charsLead as bs

/-- `charsIn needle hay` is Python's `needle in hay` on strings:
`needle` occurs as a contiguous run somewhere in `hay`. -/
def charsIn (needle : List Char) : List Char → Bool
  | [] => needle.isEmpty
  | c :: t => charsLead needle (c :: t) || charsIn needle t

/-- Python `needle in hay` on `String`. -/
def strIn (needle hay : String) : Bool :=
  charsIn needle.data hay.data

/-- Characters of `s.split(m)[0]`: everything strictly before the first
occurrence of the (nonempty) marker `m`; all of `s` if `m` never occurs. -/
def truncChars (m : List Char) : List Char → List Char
  | [] => []
  | c :: t => if charsLead m (c :: t) then [] else c :: truncChars m t

/-- Python `s.split(m)[0]` for a nonempty marker `m`. -/
def truncBefore (m s : String) : String :=
  String.mk (truncChars m.data s.data)

/-- The three metadata glyphs removed by `new_folder`.  The source runs
`new_name.replace(char, "")` for each `char` in `"©®™"` in turn; removing
every occurrence of each of the three characters equals filtering the
three characters out in one pass. -/
def isGlyph (c : Char) : Bool :=
  c == '©' || c == '®' || c == '™'

/-- Result of the `for char in "©®™": new_name = new_name.replace(char, "")`
loop of `new_folder`. -/
def stripGlyphs (s : String) : String :=
  String.mk (s.data.filter (fun c => !isGlyph c))

/-- Python `s.strip()`: remove leading and trailing whitespace. -/
def pyStrip (s : String) : String :=
  String.mk (((s.data.dropWhile Char.isWhitespace).reverse.dropWhile
    Char.isWhitespace).reverse)

/-! ### Catalog matcher (`new_folder` in `src/modules/torrents.py`)

The catalog is the parsed content of the GOG all-games JSON file: a list
of records with string fields `slug` and `title` (spec §3, CatalogEntry).
The file-handling and fetch error paths of `new_folder` (missing file,
JSON decode error) all return `None` and are outside the claims treated
here, so the embedded function takes the successfully parsed catalog as
an argument. -/

structure CatalogEntry where
  slug : String
  title : String
  deriving Repr, DecidableEq

/-- The fixed platform-suffix marker of `new_folder`. -/
def gogMarker : String := "_windows_gog_"

/-- The working name after platform-suffix stripping: the source checks
`"_windows_gog_" in new_name` and, when present, takes
`torrent_name.split("_windows_gog_")[0]`. -/
def workName (torrent_name : String) : String :=
  if strIn gogMarker torrent_name then truncBefore gogMarker torrent_name
  else torrent_name

/-- Qualification test of the fuzzy pass of `new_folder` for one catalog
item: `slug` is truthy, `new_name in slug`, and
`len(slug) <= len(new_name) + 10`.  An item failing the length bound is
skipped and the loop continues with the next item. -/
def qualSlug (name : String) (e : CatalogEntry) : Bool :=
  !(e.slug == "") && strIn name e.slug &&
    decide (e.slug.length ≤ name.length + 10)

/-- Stable insertion of `a` into a list already ascending by slug
length: `a` goes after every element of strictly smaller slug length and
before everything else. -/
def insertByLen (a : CatalogEntry) : List CatalogEntry → List CatalogEntry
  | [] => [a]
  | x :: xs =>
    if x.slug.length < a.slug.length then x :: insertByLen a xs
    else a :: x :: xs

/-- The source's `sorted(data, key=lambda x: len(x.get("slug", "")))`.
Python's `sorted` is specified stable; a stable ascending sort by a key
is unique as a function of the input list, and `sortByLen` is that
function (stable insertion sort by slug length). -/
def sortByLen : List CatalogEntry → List CatalogEntry
  | [] => []
  | a :: l => insertByLen a (sortByLen l)

/-- Final normalisation of `new_folder`: strip the glyphs, strip
whitespace, and fall back to the original torrent name when the result
is empty. -/
def postProcess (torrent_name resolved : String) : String :=
  let cleaned := pyStrip (stripGlyphs resolved)
  if cleaned == "" then torrent_name else cleaned

/-- Embedding of `new_folder(torrent_name)` from `src/modules/torrents.py`
run against the parsed catalog `data`.  `none` models the `return None`
on an empty torrent name; the exact pass is a first-match scan of `data`
in source order, the fuzzy pass a first-match scan of the
slug-length-sorted catalog. -/
def new_folder (data : List CatalogEntry) (torrent_name : String) :
    Option String :=
  if torrent_name == "" then none
  else
    let name := workName torrent_name
    let resolved :=
      match data.find? (fun item => name == item.slug) with
      | some item => item.title
      | none =>
        match (sortByLen data).find? (fun item => qualSlug name item) with
        | some item => item.title
        | none => name
    some (postProcess torrent_name resolved)

/-! ### Library relocator (`move_torrent_folder` in `src/modules/torrents.py`)

The filesystem is an oracle describing the outcome of each primitive the
function may invoke: the two precondition probes (`os.path.exists`,
`os.path.isdir` on the source), whether the destination exists, and the
outcome of `shutil.rmtree`, `os.rename` and `shutil.move`.  `os.rename`
is wrapped by `except OSError` (fall back to `shutil.move`) and a final
`except Exception` (fail without fallback), so its outcome is
three-valued; `shutil.rmtree` catches only `OSError` and `shutil.move`
only `(OSError, shutil.Error)` — an exception outside those classes
propagates out of the function (no return value), so such executions are
outside this returning-execution model. -/

/-- Outcome of the `os.rename` call. -/
inductive RenameOutcome
  | ok
  | osError
  | otherError
  deriving Repr, DecidableEq

structure FsWorld where
  sourceExists : Bool
  sourceIsDir : Bool
  destExists : Bool
  rmtreeOk : Bool
  rename : RenameOutcome
  shutilMoveOk : Bool
  deriving Repr, DecidableEq

/-- A filesystem mutation attempted by `move_torrent_folder`, in order. -/
inductive FsOp
  | rmtreeDest
  | renameCall
  | shutilMoveCall
  deriving Repr, DecidableEq

/-- The `(success, replaced, new)` triple returned by
`move_torrent_folder`, together with the trace of filesystem mutations
it attempted. -/
structure MoveResult where
  success : Bool
  replaced : Bool
  created : Bool
  ops : List FsOp
  deriving Repr, DecidableEq

/-- Embedding of `move_torrent_folder(source, destination)`: precondition
checks first (no mutation on violation), then delete a pre-existing
destination (`replaced := True` only after the delete succeeds), then
`os.rename` with `shutil.move` fallback on `OSError`. -/
def move_torrent_folder (w : FsWorld) : MoveResult :=
  if !w.sourceExists then ⟨false, false, false, []⟩
  else if !w.sourceIsDir then ⟨false, false, false, []⟩
  else
    let afterDest : Option (Bool × List FsOp) :=
      if w.destExists then
        if w.rmtreeOk then some (true, [FsOp.rmtreeDest])
        else none
      else some (false, [])
    match afterDest with
    | none => ⟨false, false, false, [FsOp.rmtreeDest]⟩
    | some (replaced, ops) =>
      match w.rename with
      | RenameOutcome.ok => ⟨true, replaced, true, ops ++ [FsOp.renameCall]⟩
      | RenameOutcome.otherError =>
        ⟨false, replaced, false, ops ++ [FsOp.renameCall]⟩
      | RenameOutcome.osError =>
        if w.shutilMoveOk then
          ⟨true, replaced, true, ops ++ [FsOp.renameCall, FsOp.shutilMoveCall]⟩
        else
          ⟨false, replaced, false, ops ++ [FsOp.renameCall, FsOp.shutilMoveCall]⟩

/-- `moveOk w` holds when the source move as a whole succeeds: the fast
`os.rename` path, or `os.rename` raising `OSError` and the `shutil.move`
fallback succeeding. -/
def moveOk (w : FsWorld) : Bool :=
  w.rename == RenameOutcome.ok ||
    (w.rename == RenameOutcome.osError && w.shutilMoveOk)

/-! ### Torrent deletion (`delete_torrent` and `get_qbittorrent_client`)

One loop iteration of `delete_torrent` calls `get_qbittorrent_client()`
and then `client.torrents_delete(...)`.  The possible outcomes:

  * `success` — client obtained, delete call succeeds, `return True`;
  * `loginFailed` — `auth_log_in` raises `qbittorrentapi.LoginFailed`,
    which `get_qbittorrent_client` does not catch; caught in
    `delete_torrent`, immediate `return False`;
  * `connError` — `torrents_delete` raises
    `qbittorrentapi.APIConnectionError`; retried with a fixed delay
    unless this is the last attempt;
  * `connErrorAtLogin` — `auth_log_in` raises `APIConnectionError`,
    which `get_qbittorrent_client` catches and turns into `return False`;
    `delete_torrent` then calls `.torrents_delete` on the boolean
    `False`, raising `AttributeError`, caught by the final
    `except Exception`, immediate `return False`;
  * `otherError` — any other exception, caught by `except Exception`,
    immediate `return False`. -/

inductive DeleteAttempt
  | success
  | loginFailed
  | connError
  | connErrorAtLogin
  | otherError
  deriving Repr, DecidableEq

def MAX_RETRIES : Nat := 3

def RETRY_DELAY : Nat := 5

/-- Result of a `delete_torrent` call: the returned boolean, the
`time.sleep` delays performed between attempts, and how many loop
iterations ran. -/
structure DeleteRun where
  ok : Bool
  delays : List Nat
  attemptsUsed : Nat
  deriving Repr, DecidableEq

/-- Iterations `attempt, attempt+1, …` of the
`for attempt in range(MAX_RETRIES)` loop of `delete_torrent`, with
`remaining = MAX_RETRIES - attempt` iterations left; the oracle
`script i` gives the outcome of iteration `i`.  When the loop ends
without an explicit return the function falls through to
`return False`. -/
def deleteAux (script : Nat → DeleteAttempt) :
    Nat → Nat → DeleteRun
  | 0, _ => ⟨false, [], 0⟩
  | r + 1, i =>
    match script i with
    | DeleteAttempt.success => ⟨true, [], 1⟩
    | DeleteAttempt.loginFailed => ⟨false, [], 1⟩
    | DeleteAttempt.connErrorAtLogin => ⟨false, [], 1⟩
    | DeleteAttempt.otherError => ⟨false, [], 1⟩
    | DeleteAttempt.connError =>
      if 0 < r then
        let rest := deleteAux script r (i + 1)
        ⟨rest.ok, RETRY_DELAY :: rest.delays, rest.attemptsUsed + 1⟩
      else ⟨false, [], 1⟩

/-- Embedding of `delete_torrent(torrent_hash)` with the per-attempt
outcome oracle `script`. -/
def delete_torrent (script : Nat → DeleteAttempt) : DeleteRun :=
  deleteAux script MAX_RETRIES 0

/-! ### Import orchestrator (`torrent_manager` in `src/modules/torrents.py`)

The per-torrent body of the loop of `torrent_manager`: only torrents in
state `"stoppedUP"` are handled; `new_folder` returning `None` skips the
torrent; relocation failure skips deletion; `delete_torrent` is called
only when relocation succeeded and `DELETE_AFTER_PROCESSING` is set.
The `replaced_any` / `new_any` flags are accumulated only from
successful relocations.  The post-loop ROMM scan triggering is driven by
those flags and by `scan_library`, modelled separately below. -/

structure Torrent where
  hash : String
  name : String
  state : String
  deriving Repr, DecidableEq

/-- One torrent of a cycle together with its effect oracles: the
filesystem world its relocation runs against and the outcome script of
its deletion attempts. -/
structure TorrentCtx where
  tor : Torrent
  fs : FsWorld
  ds : Nat → DeleteAttempt

/-- Trace record of one loop iteration: the relocation result if a
relocation was attempted, and the deletion run if `delete_torrent` was
invoked. -/
structure StepLog where
  hash : String
  mv : Option MoveResult
  del : Option DeleteRun
  deriving Repr, DecidableEq

/-- One iteration of the torrent loop of `torrent_manager`. -/
def processTorrent (data : List CatalogEntry) (deleteAfter : Bool)
    (c : TorrentCtx) : StepLog :=
  if c.tor.state == "stoppedUP" then
    match new_folder data c.tor.name with
    | none => ⟨c.tor.hash, none, none⟩
    | some _ =>
      let r := move_torrent_folder c.fs
      if r.success then
        ⟨c.tor.hash, some r,
          if deleteAfter then some (delete_torrent c.ds) else none⟩
      else ⟨c.tor.hash, some r, none⟩
  else ⟨c.tor.hash, none, none⟩

structure CycleOut where
  logs : List StepLog
  replacedAny : Bool
  newAny : Bool

/-- Embedding of the torrent loop of `torrent_manager`:
`MAX_TORRENTS_PER_RUN > 0` truncates the completed-torrent list, every
selected torrent is visited in order, and the two flags are the
disjunction over iterations of `success && replaced` resp.
`success && new`. -/
def torrent_manager (data : List CatalogEntry) (deleteAfter : Bool)
    (maxPerRun : Nat) (cs : List TorrentCtx) : CycleOut :=
  let selected := if 0 < maxPerRun then cs.take maxPerRun else cs
  let logs := selected.map (processTorrent data deleteAfter)
  { logs := logs
    replacedAny := logs.any (fun lg =>
      match lg.mv with
      | some r => r.success && r.replaced
      | none => false)
    newAny := logs.any (fun lg =>
      match lg.mv with
      | some r => r.success && r.created
      | none => false) }

/-! ### Remote scan session (`RommAPI.scan_library` in `src/modules/api/romm.py`)

The transport is an oracle script: whether
`websocket.create_connection` succeeds, the two handshake `recv` results
(`none` models an exception there, caught only by the outer handler,
which returns `False` without calling `ws.close()`), and the receive
loop's events.  Each loop event carries the wall-clock seconds the
`recv` blocked, accumulated into the elapsed clock tested by the
2-hour-ceiling check at the top of each iteration.  An exhausted event
script models a connection that never sends another frame: the `recv`
then hits the socket's own 7200-second timeout and raises
`WebSocketTimeoutException`.  The `"40"` acknowledgment send, the scan
command send, and `ws.close()` are modelled as succeeding; a ping frame
`"2"` is answered with `"3"` and the loop continues, which is also the
behaviour for any other frame not containing a completion literal. -/

inductive RecvOutcome
  | frame (s : String)
  | timeoutErr
  | otherErr
  deriving Repr, DecidableEq

/-- Terminal outcome of the receive loop. -/
inductive ScanTerm
  | done
  | stopped
  | ceilingTimedOut
  | recvTimedOut
  | errored
  deriving Repr, DecidableEq

/-- The fixed 2-hour ceiling (seconds), also the per-`recv` socket
timeout. -/
def SCAN_TIMEOUT : Nat := 7200

def scanDoneLit : String := "\"scan:done\""

def scanStopLit : String := "\"scan:stop\""

/-- The `while True` receive loop of `scan_library`: ceiling check at
the top of each iteration (strict `>`), then one `recv`; `"scan:done"` /
`"scan:stop"` substrings terminate, `WebSocketTimeoutException` and any
other receive error break out, anything else continues. -/
def scanLoop : List (Nat × RecvOutcome) → Nat → ScanTerm
  | [], clock =>
    if SCAN_TIMEOUT < clock then ScanTerm.ceilingTimedOut
    else ScanTerm.recvTimedOut
  | (d, ev) :: rest, clock =>
    if SCAN_TIMEOUT < clock then ScanTerm.ceilingTimedOut
    else
      match ev with
      | RecvOutcome.timeoutErr => ScanTerm.recvTimedOut
      | RecvOutcome.otherErr => ScanTerm.errored
      | RecvOutcome.frame s =>
        if strIn scanDoneLit s then ScanTerm.done
        else if strIn scanStopLit s then ScanTerm.stopped
        else scanLoop rest (clock + d)

structure ScanScript where
  connectOk : Bool
  handshake1 : Option String
  handshake2 : Option String
  events : List (Nat × RecvOutcome)

/-- Observable outcome of one `scan_library` call: the returned boolean,
whether the connection was established, whether `ws.close()` ran, and
the loop's terminal state when the loop was reached. -/
structure ScanRun where
  retVal : Bool
  connected : Bool
  closed : Bool
  term : Option ScanTerm
  deriving Repr, DecidableEq

/-- Embedding of `RommAPI.scan_library`.  Note the source's
`ws.close(); return True` sits directly after the loop, on every loop
exit; the two handshake `recv`s sit before the loop inside the outer
`try`, whose handler returns `False` without closing. -/
def scan_library (s : ScanScript) : ScanRun :=
  if !s.connectOk then ⟨false, false, false, none⟩
  else
    match s.handshake1 with
    | none => ⟨false, true, false, none⟩
    | some _ =>
      match s.handshake2 with
      | none => ⟨false, true, false, none⟩
      | some _ => ⟨true, true, true, some (scanLoop s.events 0)⟩

/-! ### Maintenance sweeps (`src/modules/romm_library_cleanup.py`)

`find_empty` and `find_fragmented` share a template; the part the claims
are about is the `game_ids` accumulation loop over the fetched
inventory, i.e. a filter by the respective size predicate followed by
taking ids. -/

structure GameFile where
  file_name : String
  deriving Repr, DecidableEq

structure GameEntry where
  id : Nat
  name : String
  fs_size_bytes : Nat
  files : List GameFile
  deriving Repr, DecidableEq

/-- The fixed fragmented-size threshold (bytes) of `find_fragmented`. -/
def FRAGMENT_THRESHOLD : Nat := 1100

/-- The `game_ids` accumulated by the selection loop of `find_empty`:
items with `fs_size_bytes == 0`. -/
def find_empty_ids (items : List GameEntry) : List Nat :=
  (items.filter (fun g => g.fs_size_bytes == 0)).map (fun g => g.id)

/-- The `game_ids` accumulated by the selection loop of
`find_fragmented`: items with `fs_size_bytes <= 1100`. -/
def find_fragmented_ids (items : List GameEntry) : List Nat :=
  (items.filter (fun g =>
    decide (g.fs_size_bytes ≤ FRAGMENT_THRESHOLD))).map (fun g => g.id)

/-! ### Properties of the stable slug-length sort

`sortByLen` is stable and ascending by slug length, so the first entry
of the sorted catalog satisfying a predicate is the entry with minimal
slug length among satisfying entries, earliest in source order among
ties.  `bestQual` computes that choice directly on the unsorted catalog
and is proved equal to `find?` over the sorted catalog. -/

def sortedLen (l : List CatalogEntry) : Prop :=
  List.Pairwise (fun a b => a.slug.length ≤ b.slug.length) l

theorem mem_insertByLen {b a : CatalogEntry} {s : List CatalogEntry} :
    b ∈ insertByLen a s ↔ b = a ∨ b ∈ s := by
  induction s with
  | nil => simp [insertByLen]
  | cons x xs ih =>
    by_cases h : x.slug.length < a.slug.length
    · simp only [insertByLen, if_pos h, List.mem_cons, ih]
      tauto
    · simp only [insertByLen, if_neg h, List.mem_cons]

theorem sortedLen_insertByLen (a : CatalogEntry) (s : List CatalogEntry)
    (hs : sortedLen s) : sortedLen (insertByLen a s) := by
  induction s with
  | nil =>
    simp [insertByLen, sortedLen]
  | cons x xs ih =>
    rw [sortedLen, List.pairwise_cons] at hs
    obtain ⟨hx, hxs⟩ := hs
    by_cases h : x.slug.length < a.slug.length
    · rw [insertByLen, if_pos h, sortedLen, List.pairwise_cons]
      refine ⟨fun b hb => ?_, ih hxs⟩
      rcases mem_insertByLen.1 hb with rfl | hb'
      · exact Nat.le_of_lt h
      · exact hx b hb'
    · rw [insertByLen, if_neg h, sortedLen, List.pairwise_cons]
      refine ⟨fun b hb => ?_, List.Pairwise.cons hx hxs⟩
      rcases List.mem_cons.1 hb with rfl | hb'
      · exact Nat.le_of_not_lt h
      · exact Nat.le_trans (Nat.le_of_not_lt h) (hx b hb')

theorem sortedLen_sortByLen (l : List CatalogEntry) :
    sortedLen (sortByLen l) := by
  induction l with
  | nil => simp [sortByLen, sortedLen]
  | cons a l ih => exact sortedLen_insertByLen a (sortByLen l) ih

theorem find?_insertByLen (P : CatalogEntry → Bool) (a : CatalogEntry) :
    ∀ s : List CatalogEntry, sortedLen s →
    (insertByLen a s).find? P =
      match s.find? P with
      | none => if P a then some a else none
      | some b =>
        if P a = true ∧ a.slug.length ≤ b.slug.length then some a
        else some b := by
  intro s
  induction s with
  | nil =>
    intro _
    cases hPa : P a <;> simp [insertByLen, List.find?, hPa]
  | cons x xs ih =>
    intro hs
    rw [sortedLen, List.pairwise_cons] at hs
    obtain ⟨hx, hxs⟩ := hs
    by_cases hlt : x.slug.length < a.slug.length
    · rw [insertByLen, if_pos hlt]
      by_cases hPx : P x = true
      · rw [List.find?_cons_of_pos _ hPx, List.find?_cons_of_pos _ hPx]
        have hnot : ¬ (P a = true ∧ a.slug.length ≤ x.slug.length) := by
          rintro ⟨-, hle⟩
          exact Nat.not_le.mpr hlt hle
        simp [hnot]
      · rw [List.find?_cons_of_neg _ hPx, List.find?_cons_of_neg _ hPx]
        exact ih hxs
    · rw [insertByLen, if_neg hlt]
      have hax : a.slug.length ≤ x.slug.length := Nat.le_of_not_lt hlt
      by_cases hPa : P a = true
      · rw [List.find?_cons_of_pos _ hPa]
        rcases hfind : (x :: xs).find? P with _ | b
        · simp [hPa]
        · have hb : b ∈ x :: xs := List.mem_of_find?_eq_some hfind
          have hxb : x.slug.length ≤ b.slug.length := by
            rcases List.mem_cons.1 hb with rfl | hb'
            · exact Nat.le_refl _
            · exact hx b hb'
          have : P a = true ∧ a.slug.length ≤ b.slug.length :=
            ⟨hPa, Nat.le_trans hax hxb⟩
          simp [this]
      · rw [List.find?_cons_of_neg _ hPa]
        rcases hfind : (x :: xs).find? P with _ | b
        · simp [hPa, List.find?_eq_none.1 hfind]
        · have : ¬ (P a = true ∧ a.slug.length ≤ b.slug.length) := by
            rintro ⟨hPa', -⟩
            exact hPa hPa'
          simp [this, hfind]

/-- The entry the fuzzy pass adopts, computed on the unsorted catalog:
the earliest entry in source order among the `P`-satisfying entries of
minimal slug length. -/
def bestQual (P : CatalogEntry → Bool) :
    List CatalogEntry → Option CatalogEntry
  | [] => none
  | a :: l =>
    match bestQual P l with
    | none => if P a then some a else none
    | some b =>
      if P a = true ∧ a.slug.length ≤ b.slug.length then some a
      else some b

theorem find?_sortByLen (P : CatalogEntry → Bool) (l : List CatalogEntry) :
    (sortByLen l).find? P = bestQual P l := by
  induction l with
  | nil => simp [sortByLen, bestQual, List.find?]
  | cons a l ih =>
    rw [sortByLen,
      find?_insertByLen P a (sortByLen l) (sortedLen_sortByLen l), ih]
    rcases hb : bestQual P l with _ | b <;> simp [bestQual, hb]

theorem bestQual_mem_sat (P : CatalogEntry → Bool)
    (l : List CatalogEntry) (b : CatalogEntry)
    (h : bestQual P l = some b) : b ∈ l ∧ P b = true := by
  induction l with
  | nil => simp [bestQual] at h
  | cons a l ih =>
    rcases hc : bestQual P l with _ | c
    · simp only [bestQual, hc] at h
      by_cases hPa : P a = true
      · rw [if_pos hPa] at h
        cases h
        exact ⟨List.mem_cons_self _ _, hPa⟩
      · rw [if_neg hPa] at h
        cases h
    · simp only [bestQual, hc] at h
      by_cases hcond : P a = true ∧ a.slug.length ≤ c.slug.length
      · rw [if_pos hcond] at h
        cases h
        exact ⟨List.mem_cons_self _ _, hcond.1⟩
      · rw [if_neg hcond] at h
        cases h
        obtain ⟨hm, hs⟩ := ih hc
        exact ⟨List.mem_cons_of_mem a hm, hs⟩

theorem bestQual_eq_of_first_min (P : CatalogEntry → Bool)
    (e : CatalogEntry) :
    ∀ l₁ l₂ : List CatalogEntry, P e = true →
    (∀ x ∈ l₁ ++ e :: l₂, P x = true →
      e.slug.length ≤ x.slug.length) →
    (∀ x ∈ l₁, P x = true → e.slug.length < x.slug.length) →
    bestQual P (l₁ ++ e :: l₂) = some e := by
  intro l₁
  induction l₁ with
  | nil =>
    intro l₂ hPe hmin _
    rcases hc : bestQual P l₂ with _ | c
    · simp [bestQual, hc, hPe]
    · obtain ⟨hm, hs⟩ := bestQual_mem_sat P l₂ c hc
      have hle : e.slug.length ≤ c.slug.length := by
        refine hmin c ?_ hs
        simp [hm]
      simp [bestQual, hc, hPe, hle]
  | cons a l₁ ih =>
    intro l₂ hPe hmin hfirst
    have hrest : bestQual P (l₁ ++ e :: l₂) = some e := by
      refine ih l₂ hPe (fun x hx hPx => ?_) (fun x hx hPx => ?_)
      · exact hmin x (List.mem_cons_of_mem a hx) hPx
      · exact hfirst x (List.mem_cons_of_mem a hx) hPx
    have hgoal :
        bestQual P ((a :: l₁) ++ e :: l₂) =
          match bestQual P (l₁ ++ e :: l₂) with
          | none => if P a = true then some a else none
          | some b =>
            if P a = true ∧ a.slug.length ≤ b.slug.length then some a
            else some b := rfl
    rw [hgoal, hrest]
    show (if P a = true ∧ a.slug.length ≤ e.slug.length then some a
      else some e) = some e
    by_cases hPa : P a = true
    · have hlt : e.slug.length < a.slug.length :=
        hfirst a (List.mem_cons_self a l₁) hPa
      have hnc : ¬ (P a = true ∧ a.slug.length ≤ e.slug.length) := by
        rintro ⟨-, hle⟩
        exact Nat.not_le.mpr hlt hle
      rw [if_neg hnc]
    · have hnc : ¬ (P a = true ∧ a.slug.length ≤ e.slug.length) := by
        rintro ⟨hPa', -⟩
        exact hPa hPa'
      rw [if_neg hnc]

/-! ### Claims about the catalog matcher -/

/-- C3 counterexample: for the catalog `[{slug: "a", title: "©"}]` and
raw name `"a"`, the working name equals the slug `"a"`, the claim
predicts the glyph-stripped, trimmed title (the empty string), but
`new_folder` returns the original raw name `"a"` via its
empty-result fallback. -/
theorem claim_C3_counterexample :
    workName "a" = (CatalogEntry.mk "a" "©").slug ∧
    pyStrip (stripGlyphs (CatalogEntry.mk "a" "©").title) = "" ∧
    new_folder [CatalogEntry.mk "a" "©"] "a" = some "a" ∧
    new_folder [CatalogEntry.mk "a" "©"] "a" ≠
      some (pyStrip (stripGlyphs (CatalogEntry.mk "a" "©").title)) := by
  decide

/-- C3 (amended): for a nonempty raw folder name whose working name
(after stripping at the first `_windows_gog_`) exactly equals the slug
of some catalog entry, `new_folder` resolves to the first such entry in
original catalog order, regardless of any partial matches that might
also apply, and returns its title glyph-stripped and trimmed — falling
back to the original raw name when that stripped title is empty. -/
theorem claim_C3_amended (data l₁ l₂ : List CatalogEntry)
    (e : CatalogEntry) (tn : String) (hne : tn ≠ "")
    (hsplit : data = l₁ ++ e :: l₂)
    (hbefore : ∀ x ∈ l₁, workName tn ≠ x.slug)
    (hslug : workName tn = e.slug) :
    new_folder data tn = some (postProcess tn e.title) := by
  have htn : (tn == "") = false := by
    simp [hne]
  have hfind : data.find? (fun item => workName tn == item.slug) = some e := by
    subst hsplit
    rw [List.find?_append]
    have h1 : l₁.find? (fun item => workName tn == item.slug) = none := by
      rw [List.find?_eq_none]
      intro x hx
      simp [hbefore x hx]
    have h2 : (e :: l₂).find? (fun item => workName tn == item.slug)
        = some e := by
      rw [List.find?_cons_of_pos]
      simp [hslug]
    rw [h1, h2]
    rfl
  rw [new_folder, htn]
  simp only [Bool.false_eq_true, if_false, hfind]

/-- C3 witness: a concrete catalog where the second entry matches
exactly and the title carries a glyph and padding. -/
theorem claim_C3_witness :
    new_folder [CatalogEntry.mk "b" "X", CatalogEntry.mk "a" "Game ™"] "a" =
      some (postProcess "a" (CatalogEntry.mk "a" "Game ™").title) :=
  claim_C3_amended _ [CatalogEntry.mk "b" "X"] [] (CatalogEntry.mk "a" "Game ™")
    "a" (by decide) rfl (by decide) (by decide)

/-- C4 counterexample: with catalog `[{slug: "ab", title: "T™"}]` and
working name `"a"` there is no exact match, the single entry qualifies
for the partial pass (substring and inclusive 10-character bound) and is
trivially the shortest, yet `new_folder` does not return its title
`"T™"`: it returns the glyph-stripped `"T"`. -/
theorem claim_C4_counterexample :
    workName "a" = "a" ∧
    ("a" : String) ≠ (CatalogEntry.mk "ab" "T™").slug ∧
    qualSlug "a" (CatalogEntry.mk "ab" "T™") = true ∧
    new_folder [CatalogEntry.mk "ab" "T™"] "a" = some "T" ∧
    new_folder [CatalogEntry.mk "ab" "T™"] "a" ≠
      some (CatalogEntry.mk "ab" "T™").title := by
  decide

/-- C4 (amended): for a nonempty raw name with no exact slug match,
when `e` is a catalog entry whose slug contains the working name with
`len(slug) ≤ len(workingName) + 10` (inclusive), whose slug length is
minimal among all qualifying entries, and which is the earliest in
source order among qualifying entries of that minimal length (every
earlier qualifying entry is strictly longer), `new_folder` adopts `e`
and returns its title glyph-stripped and trimmed (original raw name if
that is empty). -/
theorem claim_C4_amended (data l₁ l₂ : List CatalogEntry)
    (e : CatalogEntry) (tn : String) (hne : tn ≠ "")
    (hsplit : data = l₁ ++ e :: l₂)
    (hnoexact : ∀ x ∈ data, workName tn ≠ x.slug)
    (hq : qualSlug (workName tn) e = true)
    (hmin : ∀ x ∈ data, qualSlug (workName tn) x = true →
      e.slug.length ≤ x.slug.length)
    (hfirst : ∀ x ∈ l₁, qualSlug (workName tn) x = true →
      e.slug.length < x.slug.length) :
    new_folder data tn = some (postProcess tn e.title) := by
  have htn : (tn == "") = false := by
    simp [hne]
  have hexact : data.find? (fun item => workName tn == item.slug) = none := by
    rw [List.find?_eq_none]
    intro x hx
    simp [hnoexact x hx]
  have hfuzzy : (sortByLen data).find? (fun item => qualSlug (workName tn) item)
      = some e := by
    rw [find?_sortByLen, hsplit]
    exact bestQual_eq_of_first_min _ e l₁ l₂ hq
      (fun x hx => hmin x (hsplit ▸ hx)) hfirst
  rw [new_folder, htn]
  simp only [Bool.false_eq_true, if_false, hexact, hfuzzy]

/-- C4 witness: a longer DLC-style slug precedes the base entry in
source order, does not qualify (length bound), and the base entry is
adopted. -/
theorem claim_C4_witness :
    new_folder [CatalogEntry.mk "abcdefghijklmnop" "LongDLC",
      CatalogEntry.mk "ab" "Base"] "a" =
      some (postProcess "a" (CatalogEntry.mk "ab" "Base").title) :=
  claim_C4_amended _ [CatalogEntry.mk "abcdefghijklmnop" "LongDLC"] []
    (CatalogEntry.mk "ab" "Base") "a" (by decide) rfl (by decide) (by decide)
    (by decide) (by decide)

/-- C6: the documented fall-through scenario: the raw name
`"cyberpunk_2077_windows_gog_(12345)"` truncates at the marker to
`"cyberpunk_2077"`, has no exact match against slug
`"cyberpunk-2077"`, is not a literal substring of it (no separator
normalisation), and so the truncated working name is returned
unchanged. -/
theorem claim_C6 :
    workName "cyberpunk_2077_windows_gog_(12345)" = "cyberpunk_2077" ∧
    ("cyberpunk_2077" : String) ≠
      (CatalogEntry.mk "cyberpunk-2077" "Cyberpunk 2077").slug ∧
    strIn "cyberpunk_2077" "cyberpunk-2077" = false ∧
    new_folder [CatalogEntry.mk "cyberpunk-2077" "Cyberpunk 2077"]
      "cyberpunk_2077_windows_gog_(12345)" = some "cyberpunk_2077" := by
  decide

/-! ### Claims about the library relocator -/

/-- C5: `move_torrent_folder` returns `(true, true, true)` when the
destination pre-exists, its deletion succeeds and the source move
succeeds; `(true, false, true)` when the destination is absent and the
move succeeds; and `(false, false, false)` with no filesystem mutation
attempted when the source does not exist or is not a directory. -/
theorem claim_C5 (w : FsWorld) :
    (w.sourceExists = true → w.sourceIsDir = true → w.destExists = true →
      w.rmtreeOk = true → moveOk w = true →
      (move_torrent_folder w).success = true ∧
      (move_torrent_folder w).replaced = true ∧
      (move_torrent_folder w).created = true) ∧
    (w.sourceExists = true → w.sourceIsDir = true → w.destExists = false →
      moveOk w = true →
      (move_torrent_folder w).success = true ∧
      (move_torrent_folder w).replaced = false ∧
      (move_torrent_folder w).created = true) ∧
    ((w.sourceExists = false ∨ w.sourceIsDir = false) →
      move_torrent_folder w = ⟨false, false, false, []⟩) := by
  obtain ⟨se, sd, de, rm, rn, sm⟩ := w
  cases se <;> cases sd <;> cases de <;> cases rm <;> cases rn <;>
    cases sm <;> simp [move_torrent_folder, moveOk]

/-- C5 witness: the three scenarios at concrete worlds (replace via
rename, create via rename, missing source). -/
theorem claim_C5_witness :
    ((move_torrent_folder
        ⟨true, true, true, true, RenameOutcome.ok, true⟩).success = true ∧
      (move_torrent_folder
        ⟨true, true, true, true, RenameOutcome.ok, true⟩).replaced = true ∧
      (move_torrent_folder
        ⟨true, true, true, true, RenameOutcome.ok, true⟩).created = true) ∧
    ((move_torrent_folder
        ⟨true, true, false, true, RenameOutcome.ok, true⟩).success = true ∧
      (move_torrent_folder
        ⟨true, true, false, true, RenameOutcome.ok, true⟩).replaced = false ∧
      (move_torrent_folder
        ⟨true, true, false, true, RenameOutcome.ok, true⟩).created = true) ∧
    move_torrent_folder ⟨false, true, true, true, RenameOutcome.ok, true⟩ =
      ⟨false, false, false, []⟩ :=
  ⟨(claim_C5 ⟨true, true, true, true, RenameOutcome.ok, true⟩).1 rfl rfl rfl
      rfl (by decide),
    (claim_C5 ⟨true, true, false, true, RenameOutcome.ok, true⟩).2.1 rfl rfl
      rfl (by decide),
    (claim_C5 ⟨false, true, true, true, RenameOutcome.ok, true⟩).2.2
      (Or.inl rfl)⟩

/-- C10: `move_torrent_folder` never returns `success = true` with
`created = false`: both successful return paths (rename fast path and
`shutil.move` fallback) set `new = True` first, so `(true, replaced,
false)` is unreachable. -/
theorem claim_C10 (w : FsWorld) :
    (move_torrent_folder w).success = true →
    (move_torrent_folder w).created = true := by
  obtain ⟨se, sd, de, rm, rn, sm⟩ := w
  cases se <;> cases sd <;> cases de <;> cases rm <;> cases rn <;>
    cases sm <;> simp [move_torrent_folder]

/-- C10 witness: the fallback-move success path also sets `created`. -/
theorem claim_C10_witness :
    (move_torrent_folder
      ⟨true, true, false, true, RenameOutcome.osError, true⟩).success = true ∧
    (move_torrent_folder
      ⟨true, true, false, true, RenameOutcome.osError, true⟩).created = true :=
  ⟨by decide,
    claim_C10 ⟨true, true, false, true, RenameOutcome.osError, true⟩
      (by decide)⟩

/-! ### Claims about the remote scan session -/

/-- C1: evaluation of `scan_library` at the failing inputs.  A session
whose single receive raises the socket timeout ends in `recvTimedOut`, a
session fed only ping frames past the 2-hour ceiling ends in
`ceilingTimedOut`, and one whose receive raises another error ends in
`errored` — and in all three the call returns `True`, because
`ws.close(); return True` follows the receive loop unconditionally.
The claim (and the function's own docstring, "True if command was sent
successfully and scan finished") requires `False` on these paths;
`False` is returned only when the connection, handshake or send fails. -/
theorem claim_C1_eval :
    scan_library ⟨true, some "0", some "40",
        [(0, RecvOutcome.timeoutErr)]⟩ =
      ⟨true, true, true, some ScanTerm.recvTimedOut⟩ ∧
    scan_library ⟨true, some "0", some "40",
        [(7201, RecvOutcome.frame "2"), (0, RecvOutcome.frame "2")]⟩ =
      ⟨true, true, true, some ScanTerm.ceilingTimedOut⟩ ∧
    scan_library ⟨true, some "0", some "40",
        [(0, RecvOutcome.otherErr)]⟩ =
      ⟨true, true, true, some ScanTerm.errored⟩ ∧
    scan_library ⟨false, none, none, []⟩ = ⟨false, false, false, none⟩ := by
  decide

/-- C2 counterexample: the connection is established but the first
handshake receive raises; the outer handler returns `False` without
ever calling `ws.close()`, so a session can terminate with the socket
left open. -/
theorem claim_C2_counterexample :
    (scan_library ⟨true, none, none, []⟩).connected = true ∧
    (scan_library ⟨true, none, none, []⟩).closed = false := by
  decide

/-- C2 (amended): the connection is closed on every terminal transition
of the awaiting loop (Done, Stopped, TimedOut via receive timeout or
ceiling, Errored); but when an exception is raised during the handshake
or command send after the connection was established, the call returns
without closing the socket. -/
theorem claim_C2_amended (s : ScanScript) (h1 : s.connectOk = true)
    (h2 : s.handshake1.isSome = true) (h3 : s.handshake2.isSome = true) :
    (scan_library s).closed = true := by
  obtain ⟨co, hs1, hs2, evs⟩ := s
  subst h1
  cases hs1 with
  | none => simp at h2
  | some v =>
    cases hs2 with
    | none => simp at h3
    | some u => rfl

/-- C2 witness: a completed handshake reaches the loop and the socket
is closed on its exit. -/
theorem claim_C2_witness :
    (scan_library ⟨true, some "0", some "40",
      [(0, RecvOutcome.frame "42[\"scan:done\",{}]")]⟩).closed = true :=
  claim_C2_amended _ rfl rfl rfl

/-! ### Claims about deletion retry and the per-torrent loop -/

theorem processTorrent_hash (data : List CatalogEntry) (da : Bool)
    (c : TorrentCtx) : (processTorrent data da c).hash = c.tor.hash := by
  by_cases hst : (c.tor.state == "stoppedUP") = true
  · rcases hnf : new_folder data c.tor.name with _ | nn
    · simp [processTorrent, hst, hnf]
    · by_cases hsucc : (move_torrent_folder c.fs).success = true
      · simp [processTorrent, hst, hnf, hsucc]
      · simp [processTorrent, hst, hnf, hsucc]
  · simp [processTorrent, hst]

/-- Every selected torrent of a cycle is visited and contributes its
trace record, in order, whatever the per-torrent outcomes are: no
matching, relocation or deletion failure aborts the loop. -/
theorem torrent_manager_hashes (data : List CatalogEntry) (da : Bool)
    (mpr : Nat) (cs : List TorrentCtx) :
    (torrent_manager data da mpr cs).logs.map StepLog.hash =
      (if 0 < mpr then cs.take mpr else cs).map (fun c => c.tor.hash) := by
  rw [torrent_manager]
  dsimp only
  rw [List.map_map]
  exact List.map_congr_left (fun c _ => processTorrent_hash data da c)

/-- A failed relocation suppresses the deletion: the iteration's record
carries no deletion run. -/
theorem processTorrent_skip_delete (data : List CatalogEntry) (da : Bool)
    (c : TorrentCtx) (r : MoveResult)
    (hmv : (processTorrent data da c).mv = some r)
    (hr : r.success = false) :
    (processTorrent data da c).del = none := by
  by_cases hst : (c.tor.state == "stoppedUP") = true
  · rcases hnf : new_folder data c.tor.name with _ | nn
    · simp [processTorrent, hst, hnf]
    · by_cases hsucc : (move_torrent_folder c.fs).success = true
      · simp [processTorrent, hst, hnf, hsucc] at hmv
        rw [← hmv] at hr
        rw [hsucc] at hr
        cases hr
      · simp [processTorrent, hst, hnf, hsucc]
  · simp [processTorrent, hst]

/-- C7 counterexample: a transient connection error raised while the
client logs in is swallowed by `get_qbittorrent_client` (it returns the
boolean `False`), so the delete call raises `AttributeError`, handled by
the generic `except Exception`: `delete_torrent` returns `False` after a
single attempt, with no retry and no delay — not the claimed 3-attempt
fixed-delay retry. -/
theorem claim_C7_counterexample :
    delete_torrent (fun _ => DeleteAttempt.connErrorAtLogin) =
      ⟨false, [], 1⟩ ∧
    (delete_torrent (fun _ => DeleteAttempt.connErrorAtLogin)).delays
      = [] ∧
    (delete_torrent
      (fun _ => DeleteAttempt.connErrorAtLogin)).attemptsUsed ≠
        MAX_RETRIES := by
  decide

/-- C7 (amended): a transient connection error raised by the delete
call itself is retried with a fixed `RETRY_DELAY`-second delay, up to
`MAX_RETRIES = 3` total attempts, after which `delete_torrent` returns
false; a login failure returns false immediately with no retry; a
connection error during client login also returns false immediately
with no retry (swallowed by `get_qbittorrent_client`); and any deletion
outcome is fatal only to that deletion — the cycle goes on to process
every remaining selected torrent. -/
theorem claim_C7_amended (script : Nat → DeleteAttempt) :
    ((∀ i, i < MAX_RETRIES → script i = DeleteAttempt.connError) →
      delete_torrent script =
        ⟨false, [RETRY_DELAY, RETRY_DELAY], MAX_RETRIES⟩) ∧
    (script 0 = DeleteAttempt.loginFailed →
      delete_torrent script = ⟨false, [], 1⟩) ∧
    (script 0 = DeleteAttempt.connErrorAtLogin →
      delete_torrent script = ⟨false, [], 1⟩) ∧
    (∀ (data : List CatalogEntry) (da : Bool) (mpr : Nat)
      (cs : List TorrentCtx),
      (torrent_manager data da mpr cs).logs.map StepLog.hash =
        (if 0 < mpr then cs.take mpr else cs).map
          (fun c => c.tor.hash)) := by
  refine ⟨?_, ?_, ?_, ?_⟩
  · intro h
    have h0 := h 0 (by decide)
    have h1 := h 1 (by decide)
    have h2 := h 2 (by decide)
    simp [delete_torrent, MAX_RETRIES, deleteAux, h0, h1, h2, RETRY_DELAY]
  · intro h0
    simp [delete_torrent, MAX_RETRIES, deleteAux, h0]
  · intro h0
    simp [delete_torrent, MAX_RETRIES, deleteAux, h0]
  · exact torrent_manager_hashes

/-- C7 witness: three connection errors from the delete call exhaust
the attempts with two fixed delays; a login failure stops after one. -/
theorem claim_C7_witness :
    delete_torrent (fun _ => DeleteAttempt.connError) =
      ⟨false, [RETRY_DELAY, RETRY_DELAY], MAX_RETRIES⟩ ∧
    delete_torrent (fun _ => DeleteAttempt.loginFailed) =
      ⟨false, [], 1⟩ :=
  ⟨(claim_C7_amended (fun _ => DeleteAttempt.connError)).1 (fun _ _ => rfl),
    (claim_C7_amended (fun _ => DeleteAttempt.loginFailed)).2.1 rfl⟩

/-- C8: whenever a relocation in a cycle returns `success = false`, the
orchestrator records no deletion for that torrent (the torrent is left
in the client), and processing still visits every selected torrent in
order. -/
theorem claim_C8 (data : List CatalogEntry) (deleteAfter : Bool)
    (maxPerRun : Nat) (cs : List TorrentCtx) :
    (∀ lg ∈ (torrent_manager data deleteAfter maxPerRun cs).logs,
      ∀ r : MoveResult, lg.mv = some r → r.success = false →
        lg.del = none) ∧
    (torrent_manager data deleteAfter maxPerRun cs).logs.map StepLog.hash =
      (if 0 < maxPerRun then cs.take maxPerRun else cs).map
        (fun c => c.tor.hash) := by
  constructor
  · intro lg hlg r hmv hr
    rw [torrent_manager] at hlg
    dsimp only at hlg
    obtain ⟨c, hc, rfl⟩ := List.mem_map.1 hlg
    exact processTorrent_skip_delete data deleteAfter c r hmv hr
  · exact torrent_manager_hashes data deleteAfter maxPerRun cs

/-- C8 witness: one stopped torrent whose relocation fails (rename
raises outside `OSError`): it is logged with no deletion run and its
hash is still the full trace of the cycle. -/
theorem claim_C8_witness :
    (StepLog.mk "h1" (some ⟨false, false, false, [FsOp.renameCall]⟩)
      none).del = none ∧
    (torrent_manager [] true 0
      [⟨⟨"h1", "n1", "stoppedUP"⟩,
        ⟨true, true, false, true, RenameOutcome.otherError, false⟩,
        fun _ => DeleteAttempt.success⟩]).logs.map StepLog.hash =
      ["h1"] := by
  constructor
  · exact (claim_C8 [] true 0
      [⟨⟨"h1", "n1", "stoppedUP"⟩,
        ⟨true, true, false, true, RenameOutcome.otherError, false⟩,
        fun _ => DeleteAttempt.success⟩]).1
      (StepLog.mk "h1" (some ⟨false, false, false, [FsOp.renameCall]⟩) none)
      (by decide) ⟨false, false, false, [FsOp.renameCall]⟩ rfl rfl
  · exact (claim_C8 [] true 0
      [⟨⟨"h1", "n1", "stoppedUP"⟩,
        ⟨true, true, false, true, RenameOutcome.otherError, false⟩,
        fun _ => DeleteAttempt.success⟩]).2.trans (by decide)

/-! ### Claims about the maintenance sweep predicates -/

/-- C9: an inventory entry of size 0 is selected by both the empty
sweep and the fragmented sweep (the two selection sets overlap by
design); an entry of size exactly 1100 is selected by the fragmented
sweep (inclusive threshold) but not by the empty sweep; and every
empty-selected id is also fragmented-selected. -/
theorem claim_C9 (items : List GameEntry) (g : GameEntry)
    (hg : g ∈ items) :
    (g.fs_size_bytes = 0 →
      g.id ∈ find_empty_ids items ∧ g.id ∈ find_fragmented_ids items) ∧
    (g.fs_size_bytes = FRAGMENT_THRESHOLD →
      g.id ∈ find_fragmented_ids items ∧
      g ∉ items.filter (fun x => x.fs_size_bytes == 0)) ∧
    (∀ i ∈ find_empty_ids items, i ∈ find_fragmented_ids items) := by
  simp only [find_empty_ids, find_fragmented_ids]
  refine ⟨?_, ?_, ?_⟩
  · intro h0
    constructor
    · exact List.mem_map.2 ⟨g, List.mem_filter.2 ⟨hg, by simp [h0]⟩, rfl⟩
    · exact List.mem_map.2 ⟨g, List.mem_filter.2
        ⟨hg, by simp [h0, FRAGMENT_THRESHOLD]⟩, rfl⟩
  · intro h1100
    constructor
    · exact List.mem_map.2 ⟨g, List.mem_filter.2
        ⟨hg, by simp [h1100]⟩, rfl⟩
    · intro hmem
      have hfalse := (List.mem_filter.1 hmem).2
      rw [h1100] at hfalse
      simp [FRAGMENT_THRESHOLD] at hfalse
  · intro i hi
    obtain ⟨x, hx, rfl⟩ := List.mem_map.1 hi
    obtain ⟨hxm, hx0⟩ := List.mem_filter.1 hx
    have hx0' : x.fs_size_bytes = 0 := by simpa using hx0
    exact List.mem_map.2 ⟨x, List.mem_filter.2
      ⟨hxm, by simp [hx0', FRAGMENT_THRESHOLD]⟩, rfl⟩

/-- C9 witness: a two-entry inventory with sizes 0 and 1100. -/
theorem claim_C9_witness :
    ((1 : Nat) ∈ find_empty_ids
        [⟨1, "g0", 0, []⟩, ⟨2, "g1", 1100, []⟩] ∧
      (1 : Nat) ∈ find_fragmented_ids
        [⟨1, "g0", 0, []⟩, ⟨2, "g1", 1100, []⟩]) ∧
    ((2 : Nat) ∈ find_fragmented_ids
        [⟨1, "g0", 0, []⟩, ⟨2, "g1", 1100, []⟩] ∧
      (⟨2, "g1", 1100, []⟩ : GameEntry) ∉
        ([⟨1, "g0", 0, []⟩, ⟨2, "g1", 1100, []⟩] :
          List GameEntry).filter (fun x => x.fs_size_bytes == 0)) :=
  ⟨(claim_C9 [⟨1, "g0", 0, []⟩, ⟨2, "g1", 1100, []⟩] ⟨1, "g0", 0, []⟩
      (by decide)).1 rfl,
    (claim_C9 [⟨1, "g0", 0, []⟩, ⟨2, "g1", 1100, []⟩] ⟨2, "g1", 1100, []⟩
      (by decide)).2.1 (by decide)⟩

end Custodian
